import Mathlib

/-!
Verification of the auction Decision Engine and Control Loop of The War on Art.

Shallow embedding of the core of the `son-dzai_the-war-on-art` repository:

* `dist/strategy.js` — the `WarOnArtStrategy` class (metric calculators,
  phase strategies, `decideBid`, `updateStrategy`);
* `src/index.ts` — the session registry (`activeAuctions`), `initialize_auction`,
  `close_auction`, `place_bid` and the `auto_bid` tick (`runAutoBid`).

Currency amounts, times and counts are modelled as exact rationals (`ℚ`).
JavaScript division can produce `Infinity`/`NaN` (the engine divides by
`estimatedValue`, which the caller may set to `0`), so values produced by a
division are modelled by `JsVal`, a rational extended with `posInf`, `negInf`
and `nan`, with IEEE-754-style arithmetic and comparisons.  `reasoning`
strings of decisions are not modelled (no verified property inspects them).
The external collaborator (browser automation) is modelled as an oracle:
`place_bid`/the auto-bid tick take the collaborator's submission response as
a parameter, and the registry models the collaborator handle as an abstract
numeric handle that `initialize_auction` opens and `close_auction` closes.
-/

/-- A JavaScript number that may be the result of a division:
a finite (exact) rational, `+Infinity`, `-Infinity`, or `NaN`. -/
inductive JsVal where
  | num (q : ℚ)
  | posInf
  | negInf
  | nan
deriving DecidableEq, Repr

namespace JsVal

/-- JS division of two finite numbers: `a / 0` is `±Infinity` (or `NaN` for `0/0`). -/
def div (a b : ℚ) : JsVal :=
  if b ≠ 0 then num (a / b)
  else if a > 0 then posInf
  else if a < 0 then negInf
  else nan

/-- IEEE addition. -/
def add : JsVal → JsVal → JsVal
  | num a, num b => num (a + b)
  | num _, posInf => posInf
  | num _, negInf => negInf
  | posInf, num _ => posInf
  | negInf, num _ => negInf
  | posInf, posInf => posInf
  | negInf, negInf => negInf
  | posInf, negInf => nan
  | negInf, posInf => nan
  | _, _ => nan

/-- IEEE multiplication (`0 × ±Infinity = NaN`). -/
def mul : JsVal → JsVal → JsVal
  | num a, num b => num (a * b)
  | num a, posInf => if a > 0 then posInf else if a < 0 then negInf else nan
  | num a, negInf => if a > 0 then negInf else if a < 0 then posInf else nan
  | posInf, num b => if b > 0 then posInf else if b < 0 then negInf else nan
  | negInf, num b => if b > 0 then negInf else if b < 0 then posInf else nan
  | posInf, posInf => posInf
  | negInf, negInf => posInf
  | posInf, negInf => negInf
  | negInf, posInf => negInf
  | _, _ => nan

/-- IEEE negation. -/
def neg : JsVal → JsVal
  | num a => num (-a)
  | posInf => negInf
  | negInf => posInf
  | nan => nan

/-- IEEE subtraction. -/
def sub (a b : JsVal) : JsVal := a.add b.neg

/-- IEEE `<`: any comparison involving `NaN` is false. -/
def lt : JsVal → JsVal → Bool
  | num a, num b => a < b
  | num _, posInf => true
  | num _, negInf => false
  | posInf, num _ => false
  | negInf, num _ => true
  | posInf, posInf => false
  | negInf, negInf => false
  | negInf, posInf => true
  | posInf, negInf => false
  | _, _ => false

/-- IEEE `≤`: any comparison involving `NaN` is false. -/
def le : JsVal → JsVal → Bool
  | num a, num b => a ≤ b
  | num _, posInf => true
  | num _, negInf => false
  | posInf, num _ => false
  | negInf, num _ => true
  | posInf, posInf => true
  | negInf, negInf => true
  | negInf, posInf => true
  | posInf, negInf => false
  | _, _ => false

/-- IEEE `>`. -/
def gt (a b : JsVal) : Bool := b.lt a

/-- JS truthiness of a number: `0` and `NaN` are falsy, everything else truthy. -/
def truthy : JsVal → Bool
  | num a => a ≠ 0
  | nan => false
  | _ => true

@[simp] theorem add_num (a b : ℚ) : (num a).add (num b) = num (a + b) := rfl
@[simp] theorem mul_num (a b : ℚ) : (num a).mul (num b) = num (a * b) := rfl
@[simp] theorem sub_num (a b : ℚ) : (num a).sub (num b) = num (a - b) := by
  simp [sub, neg, add, sub_eq_add_neg]
@[simp] theorem lt_num (a b : ℚ) : (num a).lt (num b) = decide (a < b) := rfl
@[simp] theorem le_num (a b : ℚ) : (num a).le (num b) = decide (a ≤ b) := rfl
@[simp] theorem gt_num (a b : ℚ) : (num a).gt (num b) = decide (b < a) := rfl

theorem div_of_ne_zero {b : ℚ} (a : ℚ) (hb : b ≠ 0) : div a b = num (a / b) := by
  simp [div, hb]

@[simp] theorem lt_nan_left (v : JsVal) : nan.lt v = false := by cases v <;> rfl
@[simp] theorem lt_nan_right (v : JsVal) : v.lt nan = false := by cases v <;> rfl
@[simp] theorem posInf_lt_num (b : ℚ) : posInf.lt (num b) = false := rfl
@[simp] theorem negInf_lt_num (b : ℚ) : negInf.lt (num b) = true := rfl

end JsVal

/-- One bid in an auction's history (`Bid` in `strategy.ts`). -/
structure Bid where
  timestamp : ℚ
  amount : ℚ
  bidder : String
deriving DecidableEq, Repr

/-- The `AuctionState` record from `strategy.ts`: a per-tick snapshot of the auction. -/
structure AuctionState where
  auctionId : String
  currentPrice : ℚ
  yourMaxBid : ℚ
  timeRemaining : ℚ
  bidHistory : List Bid
  estimatedValue : ℚ
  competitorCount : ℚ
deriving DecidableEq, Repr

/-- The `StrategyConfig` record from `strategy.ts`. -/
structure StrategyConfig where
  maxBid : ℚ
  targetValue : ℚ
  aggressiveness : ℚ
  sniping : Bool
  snipeWindow : ℚ
deriving DecidableEq, Repr

/-- The `BidDecision` output record from `strategy.ts` (the `reasoning` string is not modelled;
`amount` is a `JsVal` because it may be built from `JsVal` arithmetic). -/
structure BidDecision where
  shouldBid : Bool
  amount : Option JsVal := none
  confidence : ℚ
  strategy : String
deriving DecidableEq, Repr

/-- JS `bidHistory.slice(-5)`: the last up-to-5 elements of a list. -/
def lastN (n : ℕ) (l : List Bid) : List Bid := l.drop (l.length - n)

/-- Source `calculatePriceAcceleration(bids)`: ratio of the most recent increment to
the mean of the increments over the window, `0` for fewer than 2 bids,
clamped via `Math.min(1, recent / Math.max(1, avg))`. -/
def calculatePriceAcceleration (bids : List Bid) : ℚ :=
  if bids.length < 2 then 0
  else
    let increments := List.zipWith (fun b a => b.amount - a.amount) bids.tail bids
    let avgIncrement := increments.sum / increments.length
    let recentIncrement := increments.getLastD 0
    min 1 (recentIncrement / max 1 avgIncrement)

/-- Source `calculateBidPressure(state)` from `strategy.js`. -/
def calculateBidPressure (state : AuctionState) : ℚ :=
  let recentBids := lastN 5 state.bidHistory
  let opponentBids := recentBids.filter (fun b => b.bidder ≠ "self")
  if opponentBids.length = 0 then 0
  else
    let bidFrequency : ℚ := opponentBids.length / max 1 (state.timeRemaining / 60)
    let priceAcceleration := calculatePriceAcceleration recentBids
    min 1 (bidFrequency * (1/2) + priceAcceleration * (1/2))

/-- Source `calculateSenteValue(state)` from `strategy.js`: the value of holding the
initiative.  `valueFactor` involves the division by `estimatedValue`, so the
result is a `JsVal`. -/
def calculateSenteValue (state : AuctionState) : JsVal :=
  let competitionFactor : ℚ := min 1 (state.competitorCount / 5)
  let valueFactor := (JsVal.num 1).sub (JsVal.div state.currentPrice state.estimatedValue)
  let timeFactor : ℚ := 1 - state.timeRemaining / 300
  (((JsVal.num competitionFactor).mul (JsVal.num (2/5))).add
      (valueFactor.mul (JsVal.num (3/10)))).add
    ((JsVal.num timeFactor).mul (JsVal.num (3/10)))

/-- Whether the last bid in the history is the operator's
(`lastBid?.bidder === 'self'` in `decideBid`/`executeSnipeStrategy`). -/
def weAreWinning (state : AuctionState) : Bool :=
  match state.bidHistory.getLast? with
  | some b => b.bidder = "self"
  | none => false

/-- Source `earlyGameStrategy(state, valueRatio, weAreWinning)` from `strategy.js`. -/
def earlyGameStrategy (state : AuctionState) (valueRatio : JsVal) (winning : Bool) :
    BidDecision :=
  if winning then
    { shouldBid := false, confidence := 9/10, strategy := "sente" }
  else if valueRatio.lt (JsVal.num (3/5)) then
    let minIncrement := state.currentPrice * (1/20)
    { shouldBid := true, amount := some (JsVal.num (state.currentPrice + minIncrement)),
      confidence := 7/10, strategy := "sente" }
  else
    { shouldBid := false, confidence := 4/5, strategy := "hold" }

/-- Source `calculateStrategicIncrement(state, senteValue)` from `strategy.js`. -/
def calculateStrategicIncrement (cfg : StrategyConfig) (state : AuctionState)
    (senteValue : JsVal) : JsVal :=
  let baseIncrement := state.currentPrice * (1/20)
  let senteMultiplier := (JsVal.num 1).add (senteValue.mul (JsVal.num cfg.aggressiveness))
  (JsVal.num baseIncrement).mul senteMultiplier

/-- Source `midGameStrategy(state, valueRatio, senteValue, weAreWinning)` from `strategy.js`. -/
def midGameStrategy (cfg : StrategyConfig) (state : AuctionState)
    (valueRatio senteValue : JsVal) (winning : Bool) : BidDecision :=
  let shouldFightForSente :=
    senteValue.gt (JsVal.num (3/5)) && decide (cfg.aggressiveness > 1/2)
  if winning && !shouldFightForSente then
    { shouldBid := false, confidence := 17/20, strategy := "sente" }
  else
    let increment := calculateStrategicIncrement cfg state senteValue
    let bidAmount := (JsVal.num state.currentPrice).add increment
    if valueRatio.lt (JsVal.num (17/20)) && bidAmount.le (JsVal.num cfg.maxBid) then
      { shouldBid := true, amount := some bidAmount, confidence := 3/4, strategy := "sente" }
    else
      { shouldBid := false, confidence := 7/10, strategy := "gote" }

/-- Source `endGameStrategy(state, valueRatio, bidPressure, weAreWinning)` from `strategy.js`. -/
def endGameStrategy (cfg : StrategyConfig) (state : AuctionState)
    (valueRatio : JsVal) (bidPressure : ℚ) (winning : Bool) : BidDecision :=
  if winning && decide (bidPressure < 7/10) then
    { shouldBid := false, confidence := 19/20, strategy := "sente" }
  else
    let finalBid := min cfg.maxBid (state.currentPrice + state.currentPrice * (1/10))
    if valueRatio.lt (JsVal.num 1) && decide (finalBid > state.currentPrice) then
      { shouldBid := true, amount := some (JsVal.num finalBid),
        confidence := 4/5, strategy := "final" }
    else
      { shouldBid := false, confidence := 9/10, strategy := "gote" }

/-- Source `executeSnipeStrategy(state, valueRatio)` from `strategy.js`. -/
def executeSnipeStrategy (cfg : StrategyConfig) (state : AuctionState)
    (valueRatio : JsVal) : BidDecision :=
  if valueRatio.lt (JsVal.num 1) && !(weAreWinning state) then
    let snipeBid := min cfg.maxBid state.estimatedValue
    { shouldBid := true, amount := some (JsVal.num snipeBid),
      confidence := 17/20, strategy := "final" }
  else
    { shouldBid := false, confidence := 19/20, strategy := "sente" }

/-- Source `decideBid(state)` from `strategy.js`: pick the phase (snipe override,
then early/mid/end by `timeRemaining / 60`) and delegate. -/
def decideBid (cfg : StrategyConfig) (state : AuctionState) : BidDecision :=
  let winning := weAreWinning state
  let valueRatio := JsVal.div state.currentPrice state.estimatedValue
  let timeRatio := state.timeRemaining / 60
  let bidPressure := calculateBidPressure state
  let senteValue := calculateSenteValue state
  if cfg.sniping && decide (state.timeRemaining ≤ cfg.snipeWindow) then
    executeSnipeStrategy cfg state valueRatio
  else if timeRatio > 5 then
    earlyGameStrategy state valueRatio winning
  else if timeRatio > 1 then
    midGameStrategy cfg state valueRatio senteValue winning
  else
    endGameStrategy cfg state valueRatio bidPressure winning

/-- Post-auction feedback passed to `updateStrategy`. -/
structure Feedback where
  won : Bool
  finalPrice : ℚ
  efficiency : ℚ
deriving DecidableEq, Repr

/-- Source `updateStrategy(feedback)` from `strategy.js`, as a pure map on the config
(the source mutates `this.config.aggressiveness` in place). -/
def updateStrategy (cfg : StrategyConfig) (feedback : Feedback) : StrategyConfig :=
  if feedback.won && decide (feedback.efficiency > 9/10) then
    { cfg with aggressiveness := max (3/10) (cfg.aggressiveness - 1/20) }
  else if !feedback.won && decide (feedback.finalPrice < cfg.maxBid) then
    { cfg with aggressiveness := min 1 (cfg.aggressiveness + 1/10) }
  else
    cfg

/-! Embedding of the MCP server layer (`src/index.ts`).

The session registry `activeAuctions` is a JS `Map` from `auctionId` to a
session `{strategy, agent, config, state}`.  The browser agent is modelled as
an abstract numeric handle: `initialize_auction` allocates a fresh handle
(`new CatawikiAgent` + `agent.initialize()`), `close_auction` closes it
(`agent.close()`).  The collaborator's `placeBid` call is modelled as an
oracle `submit : JsVal → SubmitResult` passed to the operations that bid. -/

/-- The `{success, error?}` result of the collaborator's `placeBid`. -/
structure SubmitResult where
  success : Bool
  error : Option String := none
deriving DecidableEq, Repr

/-- One registry entry of `activeAuctions`: `{strategy, agent, config, state}`.
The `strategy` object's only state is its config, so it is not duplicated. -/
structure Session where
  config : StrategyConfig
  agentHandle : ℕ
  state : AuctionState
deriving DecidableEq, Repr

/-- The server's global state: the `activeAuctions` map (insertion-ordered,
as a JS `Map`), the next fresh agent handle, and the set of handles that have
been opened and not yet closed. -/
structure Registry where
  auctions : List (String × Session)
  nextHandle : ℕ
  openHandles : List ℕ
deriving DecidableEq, Repr

/-- The empty registry at server start. -/
def Registry.empty : Registry := ⟨[], 0, []⟩

/-- JS `Map.set`: replace the binding of an existing key in place, otherwise
append a new binding. -/
def mapSet (m : List (String × Session)) (k : String) (v : Session) :
    List (String × Session) :=
  if m.any (fun p => p.1 = k) then
    m.map (fun p => if p.1 = k then (k, v) else p)
  else
    m ++ [(k, v)]

/-- JS `Map.get`: the value bound to `k`, if any. -/
def mapGet (m : List (String × Session)) (k : String) : Option Session :=
  (m.find? (fun p => p.1 = k)).map (fun p => p.2)

/-- JS `Map.delete`: remove the binding of `k`. -/
def mapDelete (m : List (String × Session)) (k : String) :
    List (String × Session) :=
  m.filter (fun p => p.1 ≠ k)

/-- The `initialize_auction` tool: build a `StrategyConfig` from the
arguments, open a fresh browser agent, fetch the initial snapshot (here a
parameter: the collaborator's answer), set `state.yourMaxBid = maxBid`, and
store the session under `auctionId` with `activeAuctions.set`.  The source
never closes a previously stored session's agent. -/
def initialize_auction (reg : Registry) (auctionId : String)
    (maxBid estimatedValue aggressiveness : ℚ) (sniping : Bool) (snipeWindow : ℚ)
    (initialState : AuctionState) : Registry :=
  let config : StrategyConfig :=
    { maxBid := maxBid, targetValue := estimatedValue,
      aggressiveness := aggressiveness, sniping := sniping,
      snipeWindow := snipeWindow }
  let handle := reg.nextHandle
  let state := { initialState with yourMaxBid := maxBid }
  { auctions := mapSet reg.auctions auctionId
      { config := config, agentHandle := handle, state := state },
    nextHandle := reg.nextHandle + 1,
    openHandles := reg.openHandles ++ [handle] }

/-- The `close_auction` tool: on a known key, apply optional feedback to the
session's strategy, close the agent (`agent.close()`), and delete the entry;
on an unknown key, fail (`false`).  The feedback-updated config dies with the
deleted session, so it has no further observable effect here. -/
def close_auction (reg : Registry) (auctionId : String) :
    Registry × Bool :=
  match mapGet reg.auctions auctionId with
  | none => (reg, false)
  | some s =>
      ({ auctions := mapDelete reg.auctions auctionId,
         nextHandle := reg.nextHandle,
         openHandles := reg.openHandles.erase s.agentHandle }, true)

/-- The part of a finite `JsVal`; non-finite bid amounts (reachable only in
the pathological corner `estimatedValue = 0 ∧ currentPrice < 0 ∧
aggressiveness < 0`) are collapsed to `0` when recorded into `bidHistory`,
whose entries model the finite amounts the scraper produces. -/
def JsVal.toRat : JsVal → ℚ
  | JsVal.num q => q
  | _ => 0

/-- The response of the `place_bid` tool, restricted to what the source
produces: the early "Strategy recommends not bidding" result, the thrown
"No bid amount specified or recommended" error, or the structured
`{success, amount, error?}` outcome of a submission. -/
inductive PlaceBidResponse where
  | noBidRecommended
  | errNoAmount
  | submitted (amount : JsVal) (success : Bool) (error : Option String)
deriving DecidableEq, Repr

/-- Submit `v` via the collaborator and, exactly when it reports success,
append `{timestamp: now, amount: v, bidder: 'self'}` to the session's
`bidHistory` (shared tail of `place_bid` and the auto-bid tick). -/
def submitAndRecord (state : AuctionState) (v : JsVal)
    (submit : JsVal → SubmitResult) (now : ℚ) : AuctionState × PlaceBidResponse :=
  let r := submit v
  (if r.success then
      { state with bidHistory := state.bidHistory ++ [⟨now, v.toRat, "self"⟩] }
    else state,
   PlaceBidResponse.submitted v r.success r.error)

/-- The `place_bid` tool body, for a session that exists: `let bidAmount =
amount`; if `!bidAmount` (absent, or `0`, which is falsy) consult the
strategy — returning early when it recommends against bidding and `force` is
not set; if still `!bidAmount`, throw; otherwise submit `bidAmount` as-is and
record the bid on success. -/
def place_bid (cfg : StrategyConfig) (state : AuctionState) (amount : Option ℚ)
    (force : Bool) (submit : JsVal → SubmitResult) (now : ℚ) :
    AuctionState × PlaceBidResponse :=
  let bidAmount : Option JsVal :=
    match amount with
    | some a => if a ≠ 0 then some (JsVal.num a) else none
    | none => none
  match bidAmount with
  | some v => submitAndRecord state v submit now
  | none =>
      let decision := decideBid cfg state
      if !decision.shouldBid && !force then (state, PlaceBidResponse.noBidRecommended)
      else
        match decision.amount with
        | some v =>
            if v.truthy then submitAndRecord state v submit now
            else (state, PlaceBidResponse.errNoAmount)
        | none => (state, PlaceBidResponse.errNoAmount)

/-- What one `runAutoBid` iteration did after refreshing the snapshot. -/
inductive TickResult where
  | ended
  | bidPlaced (amount : JsVal) (success : Bool) (error : Option String)
  | noBid
deriving DecidableEq, Repr

/-- One iteration of the `auto_bid` loop (`runAutoBid`), after the snapshot
refresh: terminate when `timeRemaining ≤ 0`; otherwise ask the strategy and,
if `decision.shouldBid && decision.amount` (truthiness again), submit and
append the bid to `bidHistory` exactly on success. -/
def autoBidTick (cfg : StrategyConfig) (newState : AuctionState)
    (submit : JsVal → SubmitResult) (now : ℚ) : AuctionState × TickResult :=
  if newState.timeRemaining ≤ 0 then (newState, TickResult.ended)
  else
    let decision := decideBid cfg newState
    match decision.amount with
    | some v =>
        if decision.shouldBid && v.truthy then
          let r := submit v
          (if r.success then
              { newState with
                bidHistory := newState.bidHistory ++ [⟨now, v.toRat, "self"⟩] }
            else newState,
           TickResult.bidPlaced v r.success r.error)
        else (newState, TickResult.noBid)
    | none => (newState, TickResult.noBid)

/-! Specification-side definitions, for comparison with the code.

These definitions follow the spec's words, not the source; each is compared
against the corresponding source-derived definition in a theorem below. -/

/-- Spec §4.1 engine-level guard, following the spec's words: "if not
`estimatedValue > 0`, treat ratio as `1.0`".  The source has no such guard. -/
def guardedValueRatio (state : AuctionState) : JsVal :=
  if 0 < state.estimatedValue then
    JsVal.div state.currentPrice state.estimatedValue
  else JsVal.num 1

/-- The source `calculateSenteValue` with the spec's guarded ratio substituted for the
raw division, used to express "behaves as if valueRatio were 1.0". -/
def calculateSenteValueGuarded (state : AuctionState) : JsVal :=
  let competitionFactor : ℚ := min 1 (state.competitorCount / 5)
  let valueFactor := (JsVal.num 1).sub (guardedValueRatio state)
  let timeFactor : ℚ := 1 - state.timeRemaining / 300
  (((JsVal.num competitionFactor).mul (JsVal.num (2/5))).add
      (valueFactor.mul (JsVal.num (3/10)))).add
    ((JsVal.num timeFactor).mul (JsVal.num (3/10)))

/-- The engine `decideBid` as the spec's guard would have it: every use of the value
ratio (including inside `initiativeValue`) sees `1.0` when
`estimatedValue ≤ 0`.  Used to compare the claimed behaviour with the code. -/
def decideBidSpecGuarded (cfg : StrategyConfig) (state : AuctionState) : BidDecision :=
  let winning := weAreWinning state
  let valueRatio := guardedValueRatio state
  let timeRatio := state.timeRemaining / 60
  let bidPressure := calculateBidPressure state
  let senteValue := calculateSenteValueGuarded state
  if cfg.sniping && decide (state.timeRemaining ≤ cfg.snipeWindow) then
    executeSnipeStrategy cfg state valueRatio
  else if timeRatio > 5 then
    earlyGameStrategy state valueRatio winning
  else if timeRatio > 1 then
    midGameStrategy cfg state valueRatio senteValue winning
  else
    endGameStrategy cfg state valueRatio bidPressure winning

/-- The `initiativeValue` formula exactly as the claim states it: all three
sub-factors clamped to `[0,1]` before combination. -/
def senteValueClaimSpec (s : AuctionState) : ℚ :=
  let clamp : ℚ → ℚ := fun x => max 0 (min 1 x)
  let competitionFactor := clamp (min 1 (s.competitorCount / 5))
  let valueFactor := clamp (1 - s.currentPrice / s.estimatedValue)
  let timeFactor := clamp (1 - min 1 (s.timeRemaining / 300))
  (2/5) * competitionFactor + (3/10) * valueFactor + (3/10) * timeFactor

/-- The `initiativeValue` formula the code actually computes: no clamping of
`valueFactor` or `timeFactor`, and no inner `min` on the time term. -/
def senteValueUnclamped (s : AuctionState) : ℚ :=
  min 1 (s.competitorCount / 5) * (2/5) + (1 - s.currentPrice / s.estimatedValue) * (3/10)
    + (1 - s.timeRemaining / 300) * (3/10)

/-- The bid-pressure formula exactly as the claim states it: `0.5·bidFrequency
+ 0.5·priceAcceleration` clamped to `[0,1]`, with `priceAcceleration` the
ratio of the most recent increment to the raw mean increment. -/
def bidPressureClaimSpec (s : AuctionState) : ℚ :=
  let recent := lastN 5 s.bidHistory
  let opponent := recent.filter (fun b => b.bidder ≠ "self")
  let bidFrequency : ℚ := opponent.length / max 1 (s.timeRemaining / 60)
  let increments := List.zipWith (fun b a => b.amount - a.amount) recent.tail recent
  let priceAcceleration : ℚ :=
    if recent.length < 2 then 0
    else min 1 (increments.getLastD 0 / (increments.sum / increments.length))
  max 0 (min 1 ((1/2) * bidFrequency + (1/2) * priceAcceleration))

/-- The bid-pressure formula the code actually computes: `0` whenever the
last-5 window holds no non-self bid, the acceleration divides by
`max(1, mean)`, and the final clamp is `min 1` only (no lower clamp). -/
def bidPressureAmendedSpec (s : AuctionState) : ℚ :=
  let recent := lastN 5 s.bidHistory
  let opponent := recent.filter (fun b => b.bidder ≠ "self")
  if opponent.length = 0 then 0
  else
    let bidFrequency : ℚ := opponent.length / max 1 (s.timeRemaining / 60)
    let increments := List.zipWith (fun b a => b.amount - a.amount) recent.tail recent
    let priceAcceleration : ℚ :=
      if recent.length < 2 then 0
      else min 1 (increments.getLastD 0 / max 1 (increments.sum / increments.length))
    min 1 (bidFrequency * (1/2) + priceAcceleration * (1/2))

/-! Concrete instances used by counterexamples and witnesses. -/

/-- Early-game snapshot: price 500, value 1200, 10 minutes left, no bids. -/
def c1State : AuctionState := ⟨"a", 500, 510, 600, [], 1200, 0⟩

/-- Config whose `maxBid` (510) lies below the early-game bid `500 × 1.05`. -/
def c1Config : StrategyConfig := ⟨510, 1200, 7/10, false, 10⟩

/-- Initial snapshot used for registry scenarios. -/
def c2State : AuctionState := ⟨"a", 100, 0, 600, [], 1200, 0⟩

/-- Registry after one `initialize_auction` for key `"a"`. -/
def c2Reg1 : Registry := initialize_auction Registry.empty "a" 1000 1200 (7/10) false 10 c2State

/-- Registry after a second `initialize_auction` for the same key `"a"`. -/
def c2Reg2 : Registry := initialize_auction c2Reg1 "a" 1000 1200 (7/10) false 10 c2State

/-- The session stored by the first `initialize_auction` in `c2Reg1`. -/
def c2Session : Session :=
  ⟨⟨1000, 1200, 7/10, false, 10⟩, 0, { c2State with yourMaxBid := 1000 }⟩

/-- Snapshot with a negative `estimatedValue` (the operator never set one). -/
def c3State : AuctionState := ⟨"a", 500, 1000, 600, [], -1000, 0⟩

/-- Config used with `c3State`. -/
def c3Config : StrategyConfig := ⟨1000, -1000, 7/10, false, 10⟩

/-- Snapshot with `estimatedValue = 0`. -/
def c3ZeroState : AuctionState := ⟨"a", 500, 1000, 600, [], 0, 0⟩

/-- Snapshot at exactly `timeRemaining = 300` with the operator leading. -/
def c4State : AuctionState := ⟨"a", 100, 1000, 300, [⟨0, 100, "self"⟩], 200, 0⟩

/-- Non-sniping config used with `c4State`. -/
def c4Config : StrategyConfig := ⟨1000, 200, 7/10, false, 10⟩

/-- Snapshot at exactly `timeRemaining = 60`. -/
def c4EndState : AuctionState := ⟨"a", 100, 1000, 60, [⟨0, 100, "self"⟩], 200, 0⟩

/-- Snapshot with `currentPrice = estimatedValue` and 10 minutes left:
`timeFactor = 1 − 600/300 = −1` is not clamped. -/
def c5State : AuctionState := ⟨"a", 100, 1000, 600, [], 100, 0⟩

/-- Snapshot satisfying every side condition of the amended C5 bound. -/
def c5GoodState : AuctionState := ⟨"a", 600, 1000, 150, [], 1200, 3⟩

/-- History of two self-bids: the last-5 window has no opponent bid, yet its
increments give a nonzero claimed price acceleration. -/
def c6State : AuctionState :=
  ⟨"a", 110, 1000, 100, [⟨0, 100, "self"⟩, ⟨1, 110, "self"⟩], 1200, 0⟩

/-- Sniping config: window 15 s. -/
def c7Config : StrategyConfig := ⟨1000, 1200, 7/10, true, 15⟩

/-- Snapshot inside the snipe window, operator not leading. -/
def c7State : AuctionState := ⟨"a", 900, 1000, 12, [⟨0, 900, "other"⟩], 1200, 3⟩

/-- A collaborator oracle whose submission always succeeds. -/
def alwaysOk : JsVal → SubmitResult := fun _ => ⟨true, none⟩

/-- A collaborator oracle whose submission always fails with an error. -/
def alwaysFail : JsVal → SubmitResult := fun _ => ⟨false, some "bid rejected"⟩

/-- Early-game snapshot where the strategy recommends holding (leading). -/
def c10State : AuctionState := ⟨"a", 500, 1000, 600, [⟨0, 500, "self"⟩], 1200, 1⟩

/-- Config used with `c10State`: note `maxBid = 10`. -/
def c10Config : StrategyConfig := ⟨10, 1200, 7/10, false, 10⟩

/-! Helper lemmas about the JS `Map` model. -/

theorem mapSet_cons_ne (p : String × Session) (m : List (String × Session))
    (k : String) (v : Session) (h : ¬ p.1 = k) :
    mapSet (p :: m) k v = p :: mapSet m k v := by
  unfold mapSet
  by_cases h2 : m.any (fun q => q.1 = k) <;> simp [List.any_cons, h, h2]

theorem mapGet_mapSet_self (m : List (String × Session)) (k : String) (v : Session) :
    mapGet (mapSet m k v) k = some v := by
  induction m with
  | nil => simp [mapSet, mapGet, List.find?]
  | cons p m ih =>
    by_cases h : p.1 = k
    · unfold mapSet mapGet
      simp [List.any_cons, h, List.find?]
    · rw [mapSet_cons_ne p m k v h]
      unfold mapGet at ih ⊢
      rw [List.find?_cons_of_neg _ (by simpa using h)]
      exact ih

theorem mapSet_keys_of_any (m : List (String × Session)) (k : String) (v : Session)
    (h : m.any (fun p => p.1 = k) = true) :
    (mapSet m k v).map Prod.fst = m.map Prod.fst := by
  unfold mapSet
  simp only [h, if_true]
  rw [List.map_map]
  apply List.map_congr_left
  intro p _
  by_cases hpk : p.1 = k <;> simp [hpk]

theorem any_key_of_mapGet_some (m : List (String × Session)) (k : String) (s : Session)
    (h : mapGet m k = some s) : m.any (fun p => p.1 = k) = true := by
  unfold mapGet at h
  rcases Option.map_eq_some'.mp h with ⟨p, hp, _⟩
  have hmem := List.mem_of_find?_eq_some hp
  have hpred := List.find?_some hp
  simp only [List.any_eq_true]
  exact ⟨p, hmem, by simpa using hpred⟩

/-! Theorems settling the claims. -/

/-- C9 (confirmed): `updateStrategy` (applyFeedback) mutates only the
`aggressiveness` field — won efficiently (efficiency > 0.9) decreases it by
0.05 floored at 0.3, lost below `maxBid` increases it by 0.1 capped at 1.0,
otherwise it is unchanged; in particular feedback `{won, efficiency 0.92}` on
aggressiveness 0.7 yields 0.65. -/
theorem updateStrategy_mutates_only_aggressiveness (cfg : StrategyConfig) (fb : Feedback) :
    (updateStrategy cfg fb).maxBid = cfg.maxBid ∧
    (updateStrategy cfg fb).targetValue = cfg.targetValue ∧
    (updateStrategy cfg fb).sniping = cfg.sniping ∧
    (updateStrategy cfg fb).snipeWindow = cfg.snipeWindow ∧
    (updateStrategy cfg fb).aggressiveness =
      (if fb.won = true ∧ fb.efficiency > 9/10 then max (3/10) (cfg.aggressiveness - 1/20)
        else if fb.won = false ∧ fb.finalPrice < cfg.maxBid then min 1 (cfg.aggressiveness + 1/10)
        else cfg.aggressiveness) ∧
    (fb.won = true → fb.efficiency = 92/100 → cfg.aggressiveness = 7/10 →
      (updateStrategy cfg fb).aggressiveness = 13/20) := by
  obtain ⟨won, fp, eff⟩ := fb
  refine ⟨?_, ?_, ?_, ?_, ?_, ?_⟩
  · cases won <;> simp [updateStrategy] <;> split_ifs <;> simp_all
  · cases won <;> simp [updateStrategy] <;> split_ifs <;> simp_all
  · cases won <;> simp [updateStrategy] <;> split_ifs <;> simp_all
  · cases won <;> simp [updateStrategy] <;> split_ifs <;> simp_all
  · cases won <;> simp [updateStrategy] <;> split_ifs <;> simp_all
  · intro hw he hag
    simp only at hw he
    subst hw
    subst he
    norm_num [updateStrategy, hag, max_def]

/-- C7 (confirmed): with `sniping` enabled and `timeRemaining ≤ snipeWindow`,
`decideBid` follows the Snipe policy regardless of the elapsed-time phase:
it bids `min(maxBid, estimatedValue)` with confidence 0.85 when the value
ratio is below 1.0 and the operator is not leading, and otherwise holds with
confidence 0.95. -/
theorem decideBid_snipe_override (cfg : StrategyConfig) (s : AuctionState)
    (hsn : cfg.sniping = true) (ht : s.timeRemaining ≤ cfg.snipeWindow) :
    ((JsVal.div s.currentPrice s.estimatedValue).lt (JsVal.num 1) = true →
      weAreWinning s = false →
        decideBid cfg s =
          { shouldBid := true, amount := some (JsVal.num (min cfg.maxBid s.estimatedValue)),
            confidence := 17/20, strategy := "final" }) ∧
    ((JsVal.div s.currentPrice s.estimatedValue).lt (JsVal.num 1) = false ∨
        weAreWinning s = true →
        decideBid cfg s =
          { shouldBid := false, amount := none, confidence := 19/20, strategy := "sente" }) := by
  have hguard : (cfg.sniping && decide (s.timeRemaining ≤ cfg.snipeWindow)) = true := by
    simp [hsn, ht]
  constructor
  · intro h1 h2
    unfold decideBid
    rw [hguard]
    simp only [if_true]
    unfold executeSnipeStrategy
    simp [h1, h2]
  · intro h
    unfold decideBid
    rw [hguard]
    simp only [if_true]
    unfold executeSnipeStrategy
    rcases h with h | h <;> simp [h]

/-- C4 (corrected): with sniping inactive, at `timeRemaining = 300` exactly
`decideBid` takes the Contested (mid-game) branch — not the Exploration
branch, since `300/60 = 5` is not `> 5` — and at `timeRemaining = 60` exactly
it takes the Terminal (end-game) branch. -/
theorem decideBid_phase_boundary (cfg : StrategyConfig) (s : AuctionState)
    (hsn : cfg.sniping = false ∨ ¬ s.timeRemaining ≤ cfg.snipeWindow) :
    (s.timeRemaining = 300 →
      decideBid cfg s = midGameStrategy cfg s
        (JsVal.div s.currentPrice s.estimatedValue) (calculateSenteValue s) (weAreWinning s)) ∧
    (s.timeRemaining = 60 →
      decideBid cfg s = endGameStrategy cfg s
        (JsVal.div s.currentPrice s.estimatedValue) (calculateBidPressure s) (weAreWinning s)) := by
  have hguard : (cfg.sniping && decide (s.timeRemaining ≤ cfg.snipeWindow)) = false := by
    rcases hsn with h | h <;> simp [h]
  constructor
  · intro ht
    unfold decideBid
    rw [hguard, ht]
    norm_num
  · intro ht
    unfold decideBid
    rw [hguard, ht]
    norm_num

/-- C4 counterexample: a snapshot at exactly `timeRemaining = 300` where the
operator leads gives the mid-game decision (confidence 0.85), which differs
from the Exploration branch's decision (confidence 0.9), refuting the claim
that the Exploration branch applies at the 300 s boundary. -/
theorem c4_counterexample :
    c4State.timeRemaining = 300 ∧ c4Config.sniping = false ∧
    decideBid c4Config c4State ≠
      earlyGameStrategy c4State
        (JsVal.div c4State.currentPrice c4State.estimatedValue) (weAreWinning c4State) := by
  refine ⟨rfl, rfl, ?_⟩
  have h1 : (decideBid c4Config c4State).confidence = 17/20 := by
    norm_num [decideBid, midGameStrategy, weAreWinning, c4State, c4Config,
      calculateSenteValue, JsVal.div]
  have h2 : (earlyGameStrategy c4State
      (JsVal.div c4State.currentPrice c4State.estimatedValue) (weAreWinning c4State)).confidence
        = 9/10 := by
    norm_num [earlyGameStrategy, weAreWinning, c4State, JsVal.div]
  intro h
  rw [h, h2] at h1
  norm_num at h1

/-- C10 (corrected): `place_bid` with an explicit nonzero amount submits that
amount to the collaborator as-is — no strategy consultation and no check
against `maxBid` (the statement holds for every amount, including amounts
above `maxBid`). An explicit amount of `0` is falsy in JS and instead falls
back to the strategy path. -/
theorem place_bid_explicit_amount_as_is (cfg : StrategyConfig) (st : AuctionState)
    (a : ℚ) (force : Bool) (submit : JsVal → SubmitResult) (now : ℚ) (ha : a ≠ 0) :
    place_bid cfg st (some a) force submit now = submitAndRecord st (JsVal.num a) submit now := by
  simp [place_bid, ha]

/-- C10 counterexample: `place_bid` called with the explicit amount `0` does
not submit `0` as-is — JS falsiness routes it to the strategy path, which
here recommends holding, so the call returns the no-bid response without any
submission. -/
theorem c10_counterexample :
    place_bid c10Config c10State (some 0) false alwaysOk 0 =
      (c10State, PlaceBidResponse.noBidRecommended) := by
  norm_num [place_bid, decideBid, earlyGameStrategy, weAreWinning, c10State, c10Config]

/-- C10 witness: the amended theorem applied at the explicit amount 9999,
far above the configured `maxBid = 10`: it is still submitted as-is. -/
theorem c10_amended_witness :
    place_bid c10Config c10State (some 9999) false alwaysOk 0 =
      submitAndRecord c10State (JsVal.num 9999) alwaysOk 0 :=
  place_bid_explicit_amount_as_is c10Config c10State 9999 false alwaysOk 0 (by norm_num)

/-- C5 counterexample: at price = value = 100 and `timeRemaining = 600`, the
code's initiative value is `-0.3` — outside `[0,1]` and different from the
claim's clamped formula, which gives `0` — because neither `valueFactor` nor
`timeFactor` is clamped. -/
theorem c5_counterexample :
    calculateSenteValue c5State = JsVal.num (-(3/10)) ∧
    senteValueClaimSpec c5State = 0 ∧
    ¬ (0 : ℚ) ≤ -(3/10) := by
  norm_num [calculateSenteValue, senteValueClaimSpec, c5State, JsVal.div]

/-- C6 counterexample: with a last-5 window of two self-bids the code returns
bid pressure `0` (early return when no opponent bids exist), while the
claim's formula `0.5·bidFrequency + 0.5·priceAcceleration` gives `1/2`. -/
theorem c6_counterexample :
    calculateBidPressure c6State = 0 ∧ bidPressureClaimSpec c6State = 1/2 := by
  constructor
  · norm_num [calculateBidPressure, c6State, lastN, List.filter]
  · norm_num [bidPressureClaimSpec, c6State, lastN, List.filter]

/-- C6 (amended): `calculateBidPressure` is `0` whenever the last-5 window
holds no non-self bid; otherwise it is `min 1 (0.5·bidFrequency +
0.5·priceAcceleration)` with `priceAcceleration = min 1 (recent /
max(1, mean))` — clamped above only — and the result never exceeds 1. -/
theorem calculateBidPressure_amended (s : AuctionState) :
    calculateBidPressure s = bidPressureAmendedSpec s ∧ calculateBidPressure s ≤ 1 := by
  constructor
  · rfl
  · simp only [calculateBidPressure]
    by_cases h : ((lastN 5 s.bidHistory).filter (fun b => b.bidder ≠ "self")).length = 0
    · rw [if_pos h]
      norm_num
    · rw [if_neg h]
      exact min_le_left _ _

/-- C2 counterexample: two `initialize_auction` calls for the same key leave
the first collaborator handle (0) open while no registered session references
it — and even closing the session afterwards only releases the second handle,
so handle 0 is leaked, refuting replace-and-release. -/
theorem c2_counterexample :
    (0 : ℕ) ∈ c2Reg2.openHandles ∧
    c2Reg2.auctions.all (fun p => p.2.agentHandle ≠ 0) = true ∧
    (close_auction c2Reg2 "a").1.openHandles = [0] := by
  refine ⟨?_, ?_, ?_⟩
  · norm_num [c2Reg2, c2Reg1, c2State, initialize_auction, Registry.empty, mapSet]
  · norm_num [c2Reg2, c2Reg1, c2State, initialize_auction, Registry.empty, mapSet]
  · rfl

/-- C2 (amended): a second `initialize_auction` for an existing key replaces
the prior session (the key set is unchanged, so the registry still holds at
most one session per key), binding the key to a fresh session with a fresh
handle — but the prior session's collaborator handle is never closed: it
stays in the open-handle set. -/
theorem initialize_auction_replaces_without_release
    (reg : Registry) (id : String) (mb ev ag : ℚ) (sn : Bool) (sw : ℚ)
    (st : AuctionState) (s : Session)
    (hs : mapGet reg.auctions id = some s)
    (hopen : s.agentHandle ∈ reg.openHandles) :
    ((initialize_auction reg id mb ev ag sn sw st).auctions.map Prod.fst
        = reg.auctions.map Prod.fst) ∧
    mapGet (initialize_auction reg id mb ev ag sn sw st).auctions id =
      some ⟨⟨mb, ev, ag, sn, sw⟩, reg.nextHandle, { st with yourMaxBid := mb }⟩ ∧
    s.agentHandle ∈ (initialize_auction reg id mb ev ag sn sw st).openHandles := by
  refine ⟨?_, ?_, ?_⟩
  · exact mapSet_keys_of_any _ _ _ (any_key_of_mapGet_some _ _ _ hs)
  · exact mapGet_mapSet_self _ _ _
  · simp [initialize_auction, hopen]

theorem calculateSenteValue_eq (s : AuctionState) (he : s.estimatedValue ≠ 0) :
    calculateSenteValue s = JsVal.num (senteValueUnclamped s) := by
  unfold calculateSenteValue senteValueUnclamped
  rw [JsVal.div_of_ne_zero _ he]
  simp

/-- C5 (amended): the initiative value equals `0.4·min(1, competitorCount/5)
+ 0.3·(1 − valueRatio) + 0.3·(1 − timeRemaining/300)` with no clamping of the
value and time factors; it lies in `[0,1]` only under the side conditions
`0 ≤ competitorCount`, `0 ≤ currentPrice ≤ estimatedValue` and
`0 ≤ timeRemaining ≤ 300`. -/
theorem calculateSenteValue_amended (s : AuctionState) (he : s.estimatedValue ≠ 0) :
    calculateSenteValue s = JsVal.num (senteValueUnclamped s) ∧
    (0 ≤ s.competitorCount → 0 ≤ s.currentPrice → s.currentPrice ≤ s.estimatedValue →
      0 ≤ s.timeRemaining → s.timeRemaining ≤ 300 →
      0 ≤ senteValueUnclamped s ∧ senteValueUnclamped s ≤ 1) := by
  refine ⟨calculateSenteValue_eq s he, ?_⟩
  intro hc hp hpe ht ht3
  have hev : 0 < s.estimatedValue := lt_of_le_of_ne (hp.trans hpe) (Ne.symm he)
  have h1 : 0 ≤ min 1 (s.competitorCount / 5) :=
    le_min zero_le_one (div_nonneg hc (by norm_num))
  have h2 : min 1 (s.competitorCount / 5) ≤ 1 := min_le_left _ _
  have h3 : s.currentPrice / s.estimatedValue ≤ 1 := (div_le_one hev).mpr hpe
  have h4 : 0 ≤ s.currentPrice / s.estimatedValue := div_nonneg hp hev.le
  have h5 : s.timeRemaining / 300 ≤ 1 := (div_le_one (by norm_num)).mpr ht3
  have h6 : 0 ≤ s.timeRemaining / 300 := div_nonneg ht (by norm_num)
  unfold senteValueUnclamped
  constructor <;> nlinarith

/-- C5 witness: the amended theorem applied to a snapshot satisfying every
side condition; its initiative value lies in `[0,1]`. -/
theorem c5_amended_witness :
    calculateSenteValue c5GoodState = JsVal.num (senteValueUnclamped c5GoodState) ∧
    0 ≤ senteValueUnclamped c5GoodState ∧ senteValueUnclamped c5GoodState ≤ 1 := by
  have h := calculateSenteValue_amended c5GoodState (by norm_num [c5GoodState])
  exact ⟨h.1, h.2 (by norm_num [c5GoodState]) (by norm_num [c5GoodState])
    (by norm_num [c5GoodState]) (by norm_num [c5GoodState]) (by norm_num [c5GoodState])⟩

/-- C3 (amended): with `estimatedValue = 0` (and a non-negative price) the
engine returns a decision without throwing and never bids — the `Infinity`
or `NaN` value ratio fails every `<` comparison. There is no neutral-default
guard in the code. -/
theorem decideBid_ev_zero_never_bids (cfg : StrategyConfig) (s : AuctionState)
    (he : s.estimatedValue = 0) (hp : 0 ≤ s.currentPrice) :
    (decideBid cfg s).shouldBid = false := by
  have hlt : ∀ c : ℚ, (JsVal.div s.currentPrice s.estimatedValue).lt (JsVal.num c) = false := by
    intro c
    rw [he]
    rcases hp.lt_or_eq with h | h
    · simp [JsVal.div, h, not_lt.mpr h.le]
    · simp [JsVal.div, ← h]
  unfold decideBid earlyGameStrategy midGameStrategy endGameStrategy executeSnipeStrategy
  simp only [hlt, Bool.false_and, Bool.and_false, if_false, Bool.false_eq_true]
  split_ifs <;> rfl

/-- C3 counterexample: a snapshot with `estimatedValue = −1000` gives a
negative value ratio, and the engine bids in the exploration phase, whereas
the claimed as-if-1.0 behaviour (the spec-guarded engine) holds — so the
engine does not behave as if the ratio were 1.0. -/
theorem c3_counterexample :
    c3State.estimatedValue ≤ 0 ∧
    (decideBid c3Config c3State).shouldBid = true ∧
    (decideBidSpecGuarded c3Config c3State).shouldBid = false := by
  refine ⟨by norm_num [c3State], ?_, ?_⟩
  · norm_num [decideBid, earlyGameStrategy, weAreWinning, c3State, c3Config, JsVal.div]
  · norm_num [decideBidSpecGuarded, earlyGameStrategy, guardedValueRatio, weAreWinning,
      c3State, c3Config]

/-- C3 witness: the amended theorem applied at a concrete snapshot with
`estimatedValue = 0`: the engine holds. -/
theorem c3_amended_witness : (decideBid c3Config c3ZeroState).shouldBid = false :=
  decideBid_ev_zero_never_bids c3Config c3ZeroState rfl (by norm_num [c3ZeroState])

/-- C4 witness: the amended theorem applied at concrete snapshots with
`timeRemaining` exactly 300 (mid game applies) and exactly 60 (end game
applies). -/
theorem c4_amended_witness :
    decideBid c4Config c4State = midGameStrategy c4Config c4State
      (JsVal.div c4State.currentPrice c4State.estimatedValue)
      (calculateSenteValue c4State) (weAreWinning c4State) ∧
    decideBid c4Config c4EndState = endGameStrategy c4Config c4EndState
      (JsVal.div c4EndState.currentPrice c4EndState.estimatedValue)
      (calculateBidPressure c4EndState) (weAreWinning c4EndState) :=
  ⟨(decideBid_phase_boundary c4Config c4State (Or.inl rfl)).1 rfl,
   (decideBid_phase_boundary c4Config c4EndState (Or.inl rfl)).2 rfl⟩

/-- C7 witness: the theorem applied at a concrete in-window snapshot where
the operator is not leading and the price is below value: the engine snipes
`min(maxBid, estimatedValue)`. -/
theorem c7_witness :
    decideBid c7Config c7State =
      { shouldBid := true,
        amount := some (JsVal.num (min c7Config.maxBid c7State.estimatedValue)),
        confidence := 17/20, strategy := "final" } :=
  (decideBid_snipe_override c7Config c7State rfl (by norm_num [c7State, c7Config])).1
    (by norm_num [c7State, JsVal.div]) (by simp [weAreWinning, c7State])

/-- C9 witness: the theorem applied at aggressiveness 0.7 with feedback
`{won, efficiency 0.92}`: the new aggressiveness is 0.65. -/
theorem c9_witness :
    (updateStrategy ⟨1000, 1200, 7/10, false, 10⟩ ⟨true, 900, 92/100⟩).aggressiveness
      = 13/20 :=
  (updateStrategy_mutates_only_aggressiveness ⟨1000, 1200, 7/10, false, 10⟩
    ⟨true, 900, 92/100⟩).2.2.2.2.2 rfl rfl rfl

/-- C2 witness: the amended theorem applied to the concrete registry holding
one session for key "a": re-initialisation replaces the binding and keeps the
old handle open. -/
theorem c2_amended_witness :
    (initialize_auction c2Reg1 "a" 1000 1200 (7/10) false 10 c2State).auctions.map Prod.fst
        = c2Reg1.auctions.map Prod.fst ∧
    mapGet (initialize_auction c2Reg1 "a" 1000 1200 (7/10) false 10 c2State).auctions "a" =
      some ⟨⟨1000, 1200, 7/10, false, 10⟩, c2Reg1.nextHandle,
        { c2State with yourMaxBid := 1000 }⟩ ∧
    c2Session.agentHandle ∈
      (initialize_auction c2Reg1 "a" 1000 1200 (7/10) false 10 c2State).openHandles :=
  initialize_auction_replaces_without_release c2Reg1 "a" 1000 1200 (7/10) false 10 c2State
    c2Session rfl (by norm_num [c2Reg1, c2State, c2Session, initialize_auction, Registry.empty, mapSet])

theorem submitAndRecord_spec (st : AuctionState) (v : JsVal)
    (submit : JsVal → SubmitResult) (now : ℚ) :
    (submitAndRecord st v submit now).2 =
      PlaceBidResponse.submitted v (submit v).success (submit v).error ∧
    (submitAndRecord st v submit now).1.bidHistory =
      (if (submit v).success = true then st.bidHistory ++ [⟨now, v.toRat, "self"⟩]
        else st.bidHistory) := by
  unfold submitAndRecord
  cases h : (submit v).success <;> simp [h]

theorem place_bid_zero_amount (cfg : StrategyConfig) (st : AuctionState) (force : Bool)
    (submit : JsVal → SubmitResult) (now : ℚ) :
    place_bid cfg st (some 0) force submit now = place_bid cfg st none force submit now := by
  simp [place_bid]

theorem place_bid_none_outcome (cfg : StrategyConfig) (st : AuctionState) (force : Bool)
    (submit : JsVal → SubmitResult) (now : ℚ) :
    place_bid cfg st none force submit now = (st, PlaceBidResponse.noBidRecommended) ∨
    place_bid cfg st none force submit now = (st, PlaceBidResponse.errNoAmount) ∨
    ∃ v, place_bid cfg st none force submit now = submitAndRecord st v submit now := by
  unfold place_bid
  dsimp only
  by_cases hsb : (!(decideBid cfg st).shouldBid && !force) = true
  · rw [if_pos hsb]
    left; rfl
  · rw [if_neg hsb]
    rcases ham : (decideBid cfg st).amount with _ | v
    · right; left; rfl
    · dsimp only
      by_cases hv : v.truthy = true
      · rw [if_pos hv]
        right; right; exact ⟨v, rfl⟩
      · rw [if_neg hv]
        right; left; rfl

theorem place_bid_outcome (cfg : StrategyConfig) (st : AuctionState) (amount : Option ℚ)
    (force : Bool) (submit : JsVal → SubmitResult) (now : ℚ) :
    place_bid cfg st amount force submit now = (st, PlaceBidResponse.noBidRecommended) ∨
    place_bid cfg st amount force submit now = (st, PlaceBidResponse.errNoAmount) ∨
    ∃ v, place_bid cfg st amount force submit now = submitAndRecord st v submit now := by
  rcases amount with _ | a
  · exact place_bid_none_outcome cfg st force submit now
  · by_cases h0 : a = 0
    · subst h0
      rw [place_bid_zero_amount]
      exact place_bid_none_outcome cfg st force submit now
    · right; right
      exact ⟨JsVal.num a, by simp [place_bid, h0]⟩

theorem autoBidTick_outcome (cfg : StrategyConfig) (ns : AuctionState)
    (submit : JsVal → SubmitResult) (now : ℚ) :
    autoBidTick cfg ns submit now = (ns, TickResult.ended) ∨
    autoBidTick cfg ns submit now = (ns, TickResult.noBid) ∨
    ∃ v, autoBidTick cfg ns submit now =
      ((if (submit v).success = true then
          { ns with bidHistory := ns.bidHistory ++ [⟨now, v.toRat, "self"⟩] } else ns),
        TickResult.bidPlaced v (submit v).success (submit v).error) := by
  unfold autoBidTick
  by_cases hend : ns.timeRemaining ≤ 0
  · rw [if_pos hend]
    left; rfl
  · rw [if_neg hend]
    dsimp only
    rcases ham : (decideBid cfg ns).amount with _ | v
    · right; left; rfl
    · dsimp only
      by_cases hb : ((decideBid cfg ns).shouldBid && v.truthy) = true
      · rw [if_pos hb]
        right; right; exact ⟨v, rfl⟩
      · rw [if_neg hb]
        right; left; rfl

/-- C8 (confirmed): in `place_bid` and in each `auto_bid` tick, a bid record
with bidder "self" and the submitted amount is appended to `bidHistory` if
and only if the collaborator reports success; every submission outcome is the
structured `{success, error}` response (no exception — the model is total and
the response enumerates all outcomes), and on failure or no-bid paths the
session state is unchanged. -/
theorem bid_recorded_iff_submission_success (cfg : StrategyConfig) (st : AuctionState)
    (amount : Option ℚ) (force : Bool) (submit : JsVal → SubmitResult) (now : ℚ) :
    (∀ v succ err,
      (place_bid cfg st amount force submit now).2 = PlaceBidResponse.submitted v succ err →
        succ = (submit v).success ∧ err = (submit v).error ∧
        (place_bid cfg st amount force submit now).1.bidHistory =
          (if succ = true then st.bidHistory ++ [⟨now, v.toRat, "self"⟩]
            else st.bidHistory)) ∧
    ((place_bid cfg st amount force submit now).2 = PlaceBidResponse.noBidRecommended ∨
      (place_bid cfg st amount force submit now).2 = PlaceBidResponse.errNoAmount →
      (place_bid cfg st amount force submit now).1 = st) ∧
    (∀ v succ err,
      (autoBidTick cfg st submit now).2 = TickResult.bidPlaced v succ err →
        succ = (submit v).success ∧ err = (submit v).error ∧
        (autoBidTick cfg st submit now).1.bidHistory =
          (if succ = true then st.bidHistory ++ [⟨now, v.toRat, "self"⟩]
            else st.bidHistory)) ∧
    ((autoBidTick cfg st submit now).2 = TickResult.noBid ∨
      (autoBidTick cfg st submit now).2 = TickResult.ended →
      (autoBidTick cfg st submit now).1 = st) := by
  refine ⟨?_, ?_, ?_, ?_⟩
  · intro v succ err h
    rcases place_bid_outcome cfg st amount force submit now with heq | heq | ⟨v', heq⟩
    · rw [heq] at h; simp at h
    · rw [heq] at h; simp at h
    · rw [heq] at h ⊢
      obtain ⟨h2, h1⟩ := submitAndRecord_spec st v' submit now
      rw [h2] at h
      simp only [PlaceBidResponse.submitted.injEq] at h
      obtain ⟨hv, hs, herr⟩ := h
      subst hv
      exact ⟨hs.symm, herr.symm, by rw [h1, ← hs]⟩
  · intro h
    rcases place_bid_outcome cfg st amount force submit now with heq | heq | ⟨v', heq⟩
    · rw [heq]
    · rw [heq]
    · rw [heq] at h
      obtain ⟨h2, _⟩ := submitAndRecord_spec st v' submit now
      rw [h2] at h
      rcases h with h | h <;> simp at h
  · intro v succ err h
    rcases autoBidTick_outcome cfg st submit now with heq | heq | ⟨v', heq⟩
    · rw [heq] at h; simp at h
    · rw [heq] at h; simp at h
    · rw [heq] at h ⊢
      simp only [TickResult.bidPlaced.injEq] at h
      obtain ⟨hv, hs, herr⟩ := h
      subst hv
      refine ⟨hs.symm, herr.symm, ?_⟩
      rw [← hs]
      cases hsucc : (submit v').success <;> simp [hsucc]
  · intro h
    rcases autoBidTick_outcome cfg st submit now with heq | heq | ⟨v', heq⟩
    · rw [heq]
    · rw [heq]
    · rw [heq] at h
      rcases h with h | h <;> simp at h

/-- C8 witness: the theorem applied at a concrete session — a successful
submission in `place_bid` appends the self-bid of 525, and a failed
submission in the auto-bid tick leaves the history unchanged. -/
theorem c8_witness :
    (place_bid c1Config c1State none false alwaysOk 0).1.bidHistory =
      c1State.bidHistory ++ [⟨0, 525, "self"⟩] ∧
    (autoBidTick c1Config c1State alwaysFail 0).1.bidHistory = c1State.bidHistory := by
  constructor
  · have hresp : (place_bid c1Config c1State none false alwaysOk 0).2 =
        PlaceBidResponse.submitted (JsVal.num 525) true none := by
      norm_num [place_bid, decideBid, earlyGameStrategy, weAreWinning, c1State, c1Config,
        JsVal.div, JsVal.truthy, submitAndRecord, alwaysOk]
    have h := (bid_recorded_iff_submission_success c1Config c1State none false alwaysOk 0).1
      (JsVal.num 525) true none hresp
    rw [h.2.2, if_pos rfl]
    rfl
  · have hresp : (autoBidTick c1Config c1State alwaysFail 0).2 =
        TickResult.bidPlaced (JsVal.num 525) false (some "bid rejected") := by
      norm_num [autoBidTick, decideBid, earlyGameStrategy, weAreWinning, c1State, c1Config,
        JsVal.div, JsVal.truthy, alwaysFail]
    have h := (bid_recorded_iff_submission_success c1Config c1State none false alwaysFail 0).2.2.1
      (JsVal.num 525) false (some "bid rejected") hresp
    rw [h.2.2]
    simp

/-- C1 (amended): whenever `decideBid` returns an amount, it lies between
`min(maxBid, currentPrice)` and `max(maxBid, currentPrice × 1.05)` — the
contested and terminal branches respect both claimed bounds, but the
exploration branch bids `currentPrice × 1.05` with no `maxBid` check, and the
snipe branch bids `min(maxBid, estimatedValue)`, which may be below the
current price. -/
theorem decideBid_amount_bounds (cfg : StrategyConfig) (s : AuctionState) (a : ℚ)
    (hp : 0 ≤ s.currentPrice) (he : 0 < s.estimatedValue)
    (hc : 0 ≤ s.competitorCount) (hag : 0 ≤ cfg.aggressiveness)
    (ha : (decideBid cfg s).amount = some (JsVal.num a)) :
    min cfg.maxBid s.currentPrice ≤ a ∧ a ≤ max cfg.maxBid (s.currentPrice * (21/20)) := by
  have hne : s.estimatedValue ≠ 0 := ne_of_gt he
  have hdiv : JsVal.div s.currentPrice s.estimatedValue
      = JsVal.num (s.currentPrice / s.estimatedValue) := JsVal.div_of_ne_zero _ hne
  simp only [decideBid, hdiv, calculateSenteValue_eq s hne] at ha
  split at ha
  · -- snipe branch
    simp only [executeSnipeStrategy, hdiv, JsVal.lt_num, Bool.and_eq_true,
      decide_eq_true_eq] at ha
    split at ha
    · rename_i hcond
      simp only [Option.some.injEq, JsVal.num.injEq] at ha
      subst ha
      have hpe : s.currentPrice ≤ s.estimatedValue := le_of_lt ((div_lt_one he).mp hcond.1)
      exact ⟨min_le_min le_rfl hpe, le_trans (min_le_left _ _) (le_max_left _ _)⟩
    · simp at ha
  · -- elapsed-time phases
    simp only [earlyGameStrategy, midGameStrategy, endGameStrategy,
      calculateStrategicIncrement, JsVal.add_num, JsVal.mul_num, JsVal.lt_num, JsVal.le_num,
      JsVal.gt_num, Bool.and_eq_true, decide_eq_true_eq] at ha
    split at ha
    · -- early game
      split at ha
      · simp at ha
      · split at ha
        · simp only [Option.some.injEq, JsVal.num.injEq] at ha
          subst ha
          constructor
          · have h := min_le_right cfg.maxBid s.currentPrice
            nlinarith
          · have h : s.currentPrice + s.currentPrice * (1/20) = s.currentPrice * (21/20) := by
              ring
            rw [h]
            exact le_max_right _ _
        · simp at ha
    · split at ha
      · -- mid game
        rename_i h5 h1
        have ht300 : s.timeRemaining ≤ 300 := by
          have h5' := not_lt.mp h5
          linarith
        split at ha
        · simp at ha
        · split at ha
          · rename_i hcond
            simp only [Option.some.injEq, JsVal.num.injEq] at ha
            subst ha
            have hσ : 0 ≤ senteValueUnclamped s := by
              have e1 : 0 ≤ min 1 (s.competitorCount / 5) :=
                le_min zero_le_one (div_nonneg hc (by norm_num))
              have e2 : s.currentPrice / s.estimatedValue < 17/20 := hcond.1
              have e3 : s.timeRemaining / 300 ≤ 1 := (div_le_one (by norm_num)).mpr ht300
              unfold senteValueUnclamped
              nlinarith
            have hmul : 0 ≤ senteValueUnclamped s * cfg.aggressiveness := mul_nonneg hσ hag
            have hinc : 0 ≤ s.currentPrice * (1/20) *
                (1 + senteValueUnclamped s * cfg.aggressiveness) := by
              apply mul_nonneg (mul_nonneg hp (by norm_num))
              linarith
            constructor
            · have h := min_le_right cfg.maxBid s.currentPrice
              linarith
            · have h := le_max_left cfg.maxBid (s.currentPrice * (21/20))
              have h2 := hcond.2
              linarith
          · simp at ha
      · -- end game
        split at ha
        · simp at ha
        · split at ha
          · rename_i hcond
            simp only [Option.some.injEq, JsVal.num.injEq] at ha
            subst ha
            exact ⟨le_trans (min_le_right _ _) (le_of_lt hcond.2),
              le_trans (min_le_left _ _) (le_max_left _ _)⟩
          · simp at ha

/-- C1 counterexample: an early-game snapshot at price 500 with
`maxBid = 510` makes the engine bid 525 — an amount above `config.maxBid`,
refuting the claimed `amount ≤ maxBid` bound. -/
theorem c1_counterexample :
    (decideBid c1Config c1State).shouldBid = true ∧
    (decideBid c1Config c1State).amount = some (JsVal.num 525) ∧
    c1Config.maxBid = 510 ∧ ¬ (525 : ℚ) ≤ 510 := by
  refine ⟨?_, ?_, rfl, by norm_num⟩ <;>
    norm_num [decideBid, earlyGameStrategy, weAreWinning, c1State, c1Config, JsVal.div]

/-- C1 witness: the amended bounds applied at the concrete early-game bid of
525. -/
theorem c1_amended_witness :
    min c1Config.maxBid c1State.currentPrice ≤ (525 : ℚ) ∧
    (525 : ℚ) ≤ max c1Config.maxBid (c1State.currentPrice * (21/20)) :=
  decideBid_amount_bounds c1Config c1State 525 (by norm_num [c1State]) (by norm_num [c1State])
    (by norm_num [c1State]) (by norm_num [c1Config])
    (by norm_num [decideBid, earlyGameStrategy, weAreWinning, c1State, c1Config, JsVal.div])
